import Mathlib

/-!
Verification of the page-state reconciliation logic of `app.py` (a Flask
application managing per-tenant "love pages").

The relevant Python code is shallowly embedded below:

* strings are `List Char` (`Str`), matching Python `str` as a sequence of
  code points; Python string comparison is the lexicographic order on the
  code points, which is exactly the `LinearOrder (List Char)` instance;
* `request.form.get(k)` / `request.form.get(k, default)` are modelled by
  `Option Str` fields on `EditRequest` together with `Option.getD`;
* the two external HTTP collaborators (Directus asset store, Spotify) are
  modelled by oracles carried in the input: each uploaded file carries the
  asset store's response for it, and `SpotifyEnv` carries the token and
  search responses;
* the database session is modelled by explicit state passing: the handler
  receives the current `Page` row and the `page_photos` table and returns
  the committed state.
-/

/-- Python strings, as lists of code points. -/
abbrev Str := List Char

/-- Python `str.strip()` (whitespace trim at both ends; the whitespace
class is `Char.isWhitespace`, which covers the characters occurring in
form data). -/
def strip (s : Str) : Str :=
  ((s.dropWhile Char.isWhitespace).reverse.dropWhile Char.isWhitespace).reverse

/-- Digit-string value, `none` when empty or containing a non-digit. -/
def parseDigits (l : Str) : Option Nat :=
  if l = [] then none
  else
    l.foldl
      (fun acc c =>
        acc.bind fun n => if c.isDigit then some (10 * n + (c.toNat - 48)) else none)
      (some 0)

/-- Python `int(s)` on form data: optional surrounding whitespace, an
optional sign, then ASCII digits; `none` models the `ValueError` raised
otherwise.  (Digit-group underscores and non-ASCII digits, which CPython
also accepts, do not occur in this application's form data and are not
modelled.) -/
def pyInt (s : Str) : Option Int :=
  match strip s with
  | '+' :: rest => (parseDigits rest).map fun n => (n : Int)
  | '-' :: rest => (parseDigits rest).map fun n => -(n : Int)
  | rest => (parseDigits rest).map fun n => (n : Int)

/-- Python `needle in haystack` substring test. -/
def containsSub (needle : Str) : Str → Bool
  | [] => needle.isEmpty
  | c :: rest => needle.isPrefixOf (c :: rest) || containsSub needle rest

/-- Helper for `splitTail`: scans the string one code point at a time,
looking for non-overlapping occurrences of `sep` from the left (exactly
the occurrences Python `str.split` consumes); `skip` counts code points
still inside the occurrence consumed last.  Returns `some t` where `t`
is the final split part when `sep` occurs, `none` when it does not. -/
def splitTailGo (sep : Str) : Nat → Str → Option Str
  | _, [] => none
  | 0, c :: rest =>
    if sep.isPrefixOf (c :: rest) then
      match splitTailGo sep (sep.length - 1) rest with
      | some t => some t
      | none => some (rest.drop (sep.length - 1))
    else
      splitTailGo sep 0 rest
  | k + 1, _ :: rest => splitTailGo sep k rest

/-- Python `s.split(sep)[-1]` for a non-empty separator. -/
def splitTail (sep s : Str) : Str :=
  (splitTailGo sep 0 s).getD s

/-- The marker substring recognised as an already-embeddable link. -/
def embedMark : Str := ("open.spotify.com/embed").toList

/-- The track separator searched in the cleaned link. -/
def trackSep : Str := ("/track/").toList

/-- The playlist separator searched in the cleaned link. -/
def playlistSep : Str := ("/playlist/").toList

/-- Base of the canonical track embed link built by the normalizer. -/
def embedTrackBase : Str := ("https://open.spotify.com/embed/track/").toList

/-- Base of the canonical playlist embed link built by the normalizer. -/
def embedPlaylistBase : Str := ("https://open.spotify.com/embed/playlist/").toList

/-- `ensure_embed_url` from `app.py`: normalizes a user-supplied Spotify
link to its embeddable form.  `none` models Python `None`; the falsy
check `if not url` sends both `None` and the empty string to `None`.
`clean_url = url.split('?')[0]` is the prefix before the first `'?'`. -/
def ensure_embed_url : Option Str → Option Str
  | none => none
  | some u =>
    if u = [] then none
    else
      let clean := u.takeWhile fun c => c != '?'
      if containsSub embedMark clean then some clean
      else if containsSub trackSep clean then
        some (embedTrackBase ++ splitTail trackSep clean)
      else if containsSub playlistSep clean then
        some (embedPlaylistBase ++ splitTail playlistSep clean)
      else some u

example :
    ensure_embed_url (some (("https://open.spotify.com/track/abc?si=1").toList)) =
      some (("https://open.spotify.com/embed/track/abc").toList) := by decide

example :
    ensure_embed_url (some (("https://open.spotify.com/embed/track/abc").toList)) =
      some (("https://open.spotify.com/embed/track/abc").toList) := by decide

example : ensure_embed_url (some (("hello world").toList)) =
    some (("hello world").toList) := by decide

/-! ## Data model (tables `love_pages` and `page_photos`) -/

/-- One element of the page's `timeline_data` JSON list. -/
structure TEvent where
  date : Str
  title : Str
deriving DecidableEq

/-- A row of the `page_photos` table. -/
structure Photo where
  id : Int
  page_id : Int
  image_url : Str
  display_order : Int
deriving DecidableEq

/-- A row of the `love_pages` table.  `timeline` is the parsed
`timeline_data` JSON column; `created_at`, `nome`, `sobrenome` and
`whatsapp` are never read or written by the edit handler and are
omitted.  The source column `aspect_ratio` is named `aspect` here. -/
structure Page where
  id : Int
  slug : Str
  title : Str
  message : Str
  background_color : Str
  spotify_url : Option Str
  admin_password : Str
  theme : Str
  font_style : Str
  layout_order : Str
  gallery_title : Str
  font_color : Str
  title_color : Str
  font_size : Str
  aspect : Str
  timeline : List TEvent
deriving DecidableEq

/-- One entry of `request.files.getlist('fotos')`, together with the
asset store's response for it.  `uploadResult` is the value returned by
`upload_file_to_directus` for this file: `some url` on success (HTTP 200
with a file id), `none` on any failure (non-200 status, missing id, or a
raised exception — all are caught inside the helper and become `None`). -/
structure FileUpload where
  filename : Str
  uploadResult : Option Str
deriving DecidableEq

/-- The authenticated POST form of the `/slug/login` route (CASO 2 of
the handler).  `Option` fields model `request.form.get(k)`: `none` means
the key is absent, `some v` means it is present with value `v` (possibly
empty).  `orders` lists the remaining form items in order, as scanned by
the `order_` loop; `files` is `request.files.getlist('fotos')`. -/
structure EditRequest where
  delete_photo_id : Option Str
  delete_event_idx : Option Str
  new_password_change : Option Str
  titulo : Option Str
  mensagem : Option Str
  cor_fundo : Option Str
  gallery_title : Option Str
  font_color : Option Str
  title_color : Option Str
  font_size : Option Str
  aspect : Option Str
  theme : Option Str
  font_style : Option Str
  layout_order : Option Str
  spotify_url : Option Str
  new_event_date : Option Str
  new_event_title : Option Str
  orders : List (Str × Str)
  files : List FileUpload
deriving DecidableEq

/-- The state committed by one authenticated POST: the page row, the
whole `page_photos` table, and the `error` / `success` messages handed
to the template. -/
structure RecResult where
  page : Page
  photos : List Photo
  error : Option Str
  success : Option Str
deriving DecidableEq

/-! ## Messages produced by the handler -/

def msgInvalidPhotoId : Str := ("ID de foto inválido.").toList

def msgPhotoRemoved : Str := ("Foto removida com sucesso!").toList

def msgPhotoNotFound : Str := ("Erro ao remover: Foto não encontrada ou sem permissão.").toList

def msgEventRemoved : Str := ("Evento da linha do tempo removido!").toList

def msgEventNotFound : Str := ("Evento não encontrado.").toList

def msgInvalidEventIdx : Str := ("Índice de evento inválido.").toList

def msgPasswordChanged : Str := ("Senha alterada e dados salvos!").toList

def msgSaved : Str := ("Página atualizada com sucesso!").toList

/-- Default written by `request.form.get('theme', 'classic')`. -/
def classicTheme : Str := ("classic").toList

/-- Default written by `request.form.get('font_style', 'sans')`. -/
def sansFont : Str := ("sans").toList

/-- Abstraction of werkzeug's `generate_password_hash` (an external
library producing a salted hash; no claim depends on its value, only on
whether the stored credential is replaced). -/
def generate_password_hash (s : Str) : Str := ("hash:").toList ++ s

/-! ## Timeline ordering -/

/-- The comparison used by `current_timeline.sort(key=lambda x: x['date'])`:
ascending by the `date` string, i.e. lexicographic on code points. -/
def dateLe (a b : TEvent) : Prop := a.date ≤ b.date

instance : DecidableRel dateLe := fun a b => inferInstanceAs (Decidable (a.date ≤ b.date))

instance : IsTotal TEvent dateLe := ⟨fun a b => le_total a.date b.date⟩

instance : IsTrans TEvent dateLe := ⟨fun _ _ _ hab hbc => le_trans hab hbc⟩

/-- Python `list.sort(key=...)` is a stable ascending sort; insertion
sort with a total order is stable, hence extensionally equal to it. -/
def sortTimeline (l : List TEvent) : List TEvent := List.insertionSort dateLe l

/-! ## The authenticated POST handler (reconciler) -/

/-- Truthiness of `delete_id` in `if delete_id:`: the `delete_photo_id`
field is present and non-empty. -/
def hasPhotoDeleteMarker (req : EditRequest) : Bool :=
  match req.delete_photo_id with
  | some s => !s.isEmpty
  | none => false

/-- Ação A of the handler: delete one photo by id.  `PagePhoto.query.get`
is primary-key lookup (`find?` on the table, ids unique); the row is
deleted only when it exists and belongs to the requesting page, any
other outcome sets the error message and commits nothing. -/
def delete_photo_branch (page : Page) (photos : List Photo) (s : Str) : RecResult :=
  match pyInt s with
  | none => ⟨page, photos, some msgInvalidPhotoId, none⟩
  | some pid =>
    match photos.find? fun p => p.id == pid with
    | some ph =>
      if ph.page_id == page.id then
        ⟨page, photos.filter fun p => p.id != pid, none, some msgPhotoRemoved⟩
      else ⟨page, photos, some msgPhotoNotFound, none⟩
    | none => ⟨page, photos, some msgPhotoNotFound, none⟩

/-- Ação A2 of the handler: delete the timeline event at a zero-based
position.  `current_timeline.pop(idx)` runs only under the explicit
`0 <= idx < len(current_timeline)` guard; otherwise the timeline is
untouched and the error message is set. -/
def delete_event_branch (page : Page) (photos : List Photo) (s : Str) : RecResult :=
  match pyInt s with
  | none => ⟨page, photos, some msgInvalidEventIdx, none⟩
  | some idx =>
    if 0 ≤ idx ∧ idx < (page.timeline.length : Int) then
      ⟨{ page with timeline := page.timeline.eraseIdx idx.toNat },
        photos, none, some msgEventRemoved⟩
    else ⟨page, photos, some msgEventNotFound, none⟩

/-- Step 4 of the save branch: the `for key, value in request.form.items()`
loop.  For every item whose key starts with `order_`, `key.split('_')[1]`
is the segment between the first and second underscore; `int` failures on
either the id segment or the value are swallowed (`except ... pass`), and
the photo is updated only when it exists and belongs to this page. -/
def applyOrders (pageId : Int) : List (Str × Str) → List Photo → List Photo
  | [], photos => photos
  | (k, v) :: rest, photos =>
    let photos2 :=
      if (("order_").toList).isPrefixOf k then
        match pyInt ((k.drop 6).takeWhile fun c => c != '_'), pyInt v with
        | some pid, some ord =>
          photos.map fun p =>
            if p.id == pid && p.page_id == pageId then
              { p with display_order := ord }
            else p
        | _, _ => photos
      else photos
    applyOrders pageId rest photos2

/-- Step 5 of the save branch: the upload loop.  A file is considered
only when `file and file.filename` is truthy (`FileStorage.__bool__` is
the non-emptiness of the filename); a failed upload adds nothing and the
loop continues; a successful upload inserts a new `page_photos` row with
`display_order=99`.  `nextId` models the primary keys handed out by the
database to the inserted rows. -/
def processFiles (pageId : Int) (nextId : Int) : List FileUpload → List Photo
  | [] => []
  | f :: rest =>
    if !f.filename.isEmpty then
      match f.uploadResult with
      | some url => ⟨nextId, pageId, url, 99⟩ :: processFiles pageId (nextId + 1) rest
      | none => processFiles pageId nextId rest
    else processFiles pageId nextId rest

/-- Ação B of the handler (the save transaction), followed literally:
scalar fields via `request.form.get(key, current)` (note `.strip()` is
applied to the result, so it also re-trims the stored value when the key
is absent; `theme` and `font_style` default to `'classic'` / `'sans'`,
not to the stored value), `layout_order` and `spotify_url` only when
truthy, password change only when present and non-blank after trimming,
timeline append-and-stable-sort when both event fields are truthy, then
the reorder loop and the upload loop, then one commit. -/
def save_branch (page : Page) (photos : List Photo) (req : EditRequest)
    (nextId : Int) : RecResult :=
  let pwChanged : Bool :=
    match req.new_password_change with
    | some np => !np.isEmpty && !(strip np).isEmpty
    | none => false
  let sp := strip (req.spotify_url.getD [])
  let newTimeline :=
    match req.new_event_date, req.new_event_title with
    | some d, some t =>
      if !d.isEmpty && !t.isEmpty then
        sortTimeline (page.timeline ++ [⟨d, strip t⟩])
      else page.timeline
    | _, _ => page.timeline
  { page :=
      { page with
        title := strip (req.titulo.getD page.title)
        message := strip (req.mensagem.getD page.message)
        background_color := req.cor_fundo.getD page.background_color
        gallery_title := strip (req.gallery_title.getD page.gallery_title)
        font_color := req.font_color.getD page.font_color
        title_color := req.title_color.getD page.title_color
        font_size := req.font_size.getD page.font_size
        aspect := req.aspect.getD page.aspect
        theme := req.theme.getD classicTheme
        font_style := req.font_style.getD sansFont
        layout_order :=
          match req.layout_order with
          | some l => if l.isEmpty then page.layout_order else l
          | none => page.layout_order
        spotify_url :=
          if sp.isEmpty then page.spotify_url else ensure_embed_url (some sp)
        admin_password :=
          if pwChanged then
            generate_password_hash (strip (req.new_password_change.getD []))
          else page.admin_password
        timeline := newTimeline }
    photos := applyOrders page.id req.orders photos ++ processFiles page.id nextId req.files
    error := none
    success := some (if pwChanged then msgPasswordChanged else msgSaved) }

/-- The dispatch of the authenticated POST (lines 466–581 of `app.py`):
a truthy `delete_photo_id` runs only the photo deletion; otherwise a
present `delete_event_idx` (`is not None`, even when empty) runs only the
timeline deletion; otherwise the save transaction runs. -/
def reconcile (page : Page) (photos : List Photo) (req : EditRequest)
    (nextId : Int) : RecResult :=
  if hasPhotoDeleteMarker req then
    delete_photo_branch page photos (req.delete_photo_id.getD [])
  else
    match req.delete_event_idx with
    | some s => delete_event_branch page photos s
    | none => save_branch page photos req nextId

/-! ## The search endpoint `/api/spotify-search` -/

/-- Responses of the two Spotify endpoints for one request cycle:
`token` is what the client-credentials exchange yields (`none` models
any failure of `get_spotify_token`), `searchItems` the track list of the
search call when it answers with HTTP 200 (`none` models a non-200
answer or a raised exception). -/
structure SpotifyEnv where
  token : Option Str
  searchItems : Option (List Str)
deriving DecidableEq

/-- `search_tracks` from `app.py`, with an HTTP-request counter for the
Music Lookup API: it always performs the token exchange (one request),
and on token success also the search request; any failure yields `[]`.
Track descriptors are abstracted to their ids. -/
def search_tracks (env : SpotifyEnv) : List Str × Nat :=
  match env.token with
  | none => ([], 1)
  | some _ =>
    match env.searchItems with
    | some items => (items, 2)
    | none => ([], 2)

/-- The `/api/spotify-search` handler: `query = request.args.get('q', '')`,
then `if not query: return jsonify([])` — only the empty query short-
circuits; every other query is handed to `search_tracks`.  The second
component counts HTTP requests made to the Music Lookup API. -/
def spotify_search_api (env : SpotifyEnv) (q : Str) : List Str × Nat :=
  if q.isEmpty then ([], 0) else search_tracks env

/-! ## Derived request transformations and sample data -/

/-- The request with everything but the two delete markers removed:
used to state that a request carrying a delete marker behaves as if it
carried nothing else. -/
def deleteOnly (req : EditRequest) : EditRequest where
  delete_photo_id := req.delete_photo_id
  delete_event_idx := req.delete_event_idx
  new_password_change := none
  titulo := none
  mensagem := none
  cor_fundo := none
  gallery_title := none
  font_color := none
  title_color := none
  font_size := none
  aspect := none
  theme := none
  font_style := none
  layout_order := none
  spotify_url := none
  new_event_date := none
  new_event_title := none
  orders := []
  files := []

/-- A concrete page row used by witnesses and counterexamples. -/
def samplePage : Page where
  id := 1
  slug := ("casal").toList
  title := ("Nossa História").toList
  message := ("Bem-vindos à nossa história de amor!").toList
  background_color := ("#FF6B8B").toList
  spotify_url := none
  admin_password := ("hash:antiga").toList
  theme := ("modern").toList
  font_style := ("serif").toList
  layout_order := ("header,text,spotify,timeline,photos,footer").toList
  gallery_title := ("Nossa Galeria").toList
  font_color := ("#374151").toList
  title_color := ("#111827").toList
  font_size := ("medium").toList
  aspect := ("square").toList
  timeline := [⟨("2020-05-01").toList, ("Primeiro encontro").toList⟩]

/-- The POST form with no field submitted. -/
def emptyRequest : EditRequest where
  delete_photo_id := none
  delete_event_idx := none
  new_password_change := none
  titulo := none
  mensagem := none
  cor_fundo := none
  gallery_title := none
  font_color := none
  title_color := none
  font_size := none
  aspect := none
  theme := none
  font_style := none
  layout_order := none
  spotify_url := none
  new_event_date := none
  new_event_title := none
  orders := []
  files := []

/-- Two photos of the sample page. -/
def photosA : List Photo :=
  [⟨5, 1, ("https://directus/assets/a5").toList, 0⟩,
   ⟨6, 1, ("https://directus/assets/a6").toList, 1⟩]

/-- A photo-delete request that also carries edits of every other kind. -/
def reqDeleteWithEdits : EditRequest :=
  { emptyRequest with
    delete_photo_id := some (("5").toList)
    titulo := some (("Novo Título").toList)
    new_password_change := some (("novasenha").toList)
    spotify_url := some (("https://open.spotify.com/track/zzz").toList)
    new_event_date := some (("2021-02-02").toList)
    new_event_title := some (("Evento Novo").toList)
    orders := [((("order_6").toList), (("3").toList))]
    files := [⟨("foto.jpg").toList, some (("https://directus/assets/n1").toList)⟩] }

/-- A save request whose `titulo` field is present but empty. -/
def reqEmptyTitle : EditRequest := { emptyRequest with titulo := some [] }

/-- A save request submitting some scalar fields and not others. -/
def reqScalarMix : EditRequest :=
  { emptyRequest with
    titulo := some (("Oi ").toList)
    cor_fundo := some (("#000000").toList)
    theme := some (("elegant").toList) }

/-- A save request adding one timeline event (title padded, to exercise
the trim). -/
def reqAddEvent : EditRequest :=
  { emptyRequest with
    new_event_date := some (("2019-12-31").toList)
    new_event_title := some ((" Ano Novo ").toList) }

/-- A timeline-delete request addressing position 0. -/
def reqDelEvent0 : EditRequest :=
  { emptyRequest with delete_event_idx := some (("0").toList) }

/-- A photo owned by a different page (page 2). -/
def photosB : List Photo := [⟨10, 2, ("https://directus/assets/b").toList, 0⟩]

/-- A photo-delete request naming the foreign photo. -/
def reqDeleteForeign : EditRequest :=
  { emptyRequest with delete_photo_id := some (("10").toList) }

/-- A table with one photo of page 1 and one of page 2. -/
def photosC : List Photo :=
  [⟨7, 1, ("https://directus/assets/c7").toList, 0⟩,
   ⟨10, 2, ("https://directus/assets/b").toList, 0⟩]

/-- A photo-delete request naming the owned photo. -/
def reqDeleteOwn : EditRequest :=
  { emptyRequest with delete_photo_id := some (("7").toList) }

/-- A table whose existing photo already has `display_order` 99 (as any
previously uploaded photo does). -/
def photosOrder99 : List Photo := [⟨3, 1, ("https://directus/assets/o").toList, 99⟩]

/-- A save request uploading one file that the asset store accepts. -/
def reqUploadOne : EditRequest :=
  { emptyRequest with
    files := [⟨("nova.png").toList, some (("https://directus/assets/n9").toList)⟩] }

/-- An upload the asset store accepts. -/
def fa : FileUpload := ⟨("a.png").toList, some (("https://directus/assets/na").toList)⟩

/-- An upload the asset store rejects. -/
def fb : FileUpload := ⟨("b.png").toList, none⟩

/-- Another upload the asset store accepts. -/
def fc : FileUpload := ⟨("c.png").toList, some (("https://directus/assets/nc").toList)⟩

/-- A save request with three uploads, the second of which fails, plus a
scalar edit that must still commit. -/
def reqThreeFiles : EditRequest :=
  { emptyRequest with
    titulo := some (("Título Novo").toList)
    files := [fa, fb, fc] }

/-- A Spotify cycle in which already the token exchange fails. -/
def envFail : SpotifyEnv := ⟨none, none⟩

/-- The length-1 search query of the spec's example scenario. -/
def qA : Str := ("a").toList

/-- A save request submitting a padded track link for the music field. -/
def reqSpotify : EditRequest :=
  { emptyRequest with
    spotify_url := some ((" https://open.spotify.com/track/xyz?si=2 ").toList) }

/-! ## Theorems -/

/-- A request without delete markers runs the save transaction. -/
theorem reconcile_save (page : Page) (photos : List Photo) (req : EditRequest)
    (nextId : Int) (h1 : hasPhotoDeleteMarker req = false)
    (h2 : req.delete_event_idx = none) :
    reconcile page photos req nextId = save_branch page photos req nextId := by
  simp [reconcile, h1, h2]

/-- C1: an authenticated edit request carrying a photo-delete marker or a
timeline-delete marker commits exactly what the same request with every
other edit removed would commit: scalar field edits, file uploads, photo
reorderings, credential changes and timeline additions present in the
same request leave the page state unchanged. -/
theorem delete_marker_is_delete_only (page : Page) (photos : List Photo)
    (req : EditRequest) (nextId : Int)
    (h : hasPhotoDeleteMarker req = true ∨ req.delete_event_idx.isSome = true) :
    reconcile page photos req nextId =
      reconcile page photos (deleteOnly req) nextId := by
  have e1 : hasPhotoDeleteMarker (deleteOnly req) = hasPhotoDeleteMarker req := rfl
  have e2 : (deleteOnly req).delete_photo_id = req.delete_photo_id := rfl
  have e3 : (deleteOnly req).delete_event_idx = req.delete_event_idx := rfl
  cases hpm : hasPhotoDeleteMarker req with
  | true => simp [reconcile, e1, e2, e3, hpm]
  | false =>
    cases hei : req.delete_event_idx with
    | some s => simp [reconcile, e1, e2, e3, hpm, hei]
    | none =>
      rw [hpm, hei] at h
      simp at h

/-- Witness for `delete_marker_is_delete_only`: a concrete photo-delete
request that also carries a scalar edit, a credential change, a music
link, a new timeline event, a reorder field and an upload. -/
theorem delete_marker_is_delete_only_witness :
    reconcile samplePage photosA reqDeleteWithEdits 50 =
      reconcile samplePage photosA (deleteOnly reqDeleteWithEdits) 50 :=
  delete_marker_is_delete_only samplePage photosA reqDeleteWithEdits 50
    (Or.inl (by decide))

/-- C2 counterexample: a present-but-empty `titulo` does not retain the
stored title (the handler clears it), and an absent `theme` does not
retain the stored theme (the handler resets it to `classic`), refuting
the claim that present-but-empty and absent fields retain their values. -/
theorem present_empty_field_not_retained :
    (reconcile samplePage [] reqEmptyTitle 0).page.title ≠ samplePage.title
      ∧ (reconcile samplePage [] emptyRequest 0).page.theme ≠ samplePage.theme := by
  decide

/-- C2 (amended): on a save request, `title`, `message`,
`background_color`, `gallery_title`, `font_color`, `title_color`,
`font_size` and `aspect_ratio` are set to the submitted value whenever
the field is present — including a present-but-empty value, which clears
the field — and keep the stored value when absent (the three trimmed
fields are re-trimmed even then); `theme` and `font_style` are set to the
submitted value when present and reset to the defaults `classic` / `sans`
when absent; `layout_order` is updated only when present and non-empty. -/
theorem scalar_field_update_semantics (page : Page) (photos : List Photo)
    (req : EditRequest) (nextId : Int)
    (h1 : hasPhotoDeleteMarker req = false) (h2 : req.delete_event_idx = none) :
    ((reconcile page photos req nextId).page.title = strip (req.titulo.getD page.title))
      ∧ ((reconcile page photos req nextId).page.message = strip (req.mensagem.getD page.message))
      ∧ ((reconcile page photos req nextId).page.background_color = req.cor_fundo.getD page.background_color)
      ∧ ((reconcile page photos req nextId).page.gallery_title = strip (req.gallery_title.getD page.gallery_title))
      ∧ ((reconcile page photos req nextId).page.font_color = req.font_color.getD page.font_color)
      ∧ ((reconcile page photos req nextId).page.title_color = req.title_color.getD page.title_color)
      ∧ ((reconcile page photos req nextId).page.font_size = req.font_size.getD page.font_size)
      ∧ ((reconcile page photos req nextId).page.aspect = req.aspect.getD page.aspect)
      ∧ ((reconcile page photos req nextId).page.theme = req.theme.getD classicTheme)
      ∧ ((reconcile page photos req nextId).page.font_style = req.font_style.getD sansFont)
      ∧ ((reconcile page photos req nextId).page.layout_order =
          match req.layout_order with
          | some l => if l.isEmpty then page.layout_order else l
          | none => page.layout_order) := by
  rw [reconcile_save page photos req nextId h1 h2]
  exact ⟨rfl, rfl, rfl, rfl, rfl, rfl, rfl, rfl, rfl, rfl, rfl⟩

/-- Witness for `scalar_field_update_semantics`: a request submitting
`titulo`, `cor_fundo` and `theme` and omitting everything else. -/
theorem scalar_field_update_semantics_witness :
    ((reconcile samplePage [] reqScalarMix 3).page.title = strip (reqScalarMix.titulo.getD samplePage.title))
      ∧ ((reconcile samplePage [] reqScalarMix 3).page.message = strip (reqScalarMix.mensagem.getD samplePage.message))
      ∧ ((reconcile samplePage [] reqScalarMix 3).page.background_color = reqScalarMix.cor_fundo.getD samplePage.background_color)
      ∧ ((reconcile samplePage [] reqScalarMix 3).page.gallery_title = strip (reqScalarMix.gallery_title.getD samplePage.gallery_title))
      ∧ ((reconcile samplePage [] reqScalarMix 3).page.font_color = reqScalarMix.font_color.getD samplePage.font_color)
      ∧ ((reconcile samplePage [] reqScalarMix 3).page.title_color = reqScalarMix.title_color.getD samplePage.title_color)
      ∧ ((reconcile samplePage [] reqScalarMix 3).page.font_size = reqScalarMix.font_size.getD samplePage.font_size)
      ∧ ((reconcile samplePage [] reqScalarMix 3).page.aspect = reqScalarMix.aspect.getD samplePage.aspect)
      ∧ ((reconcile samplePage [] reqScalarMix 3).page.theme = reqScalarMix.theme.getD classicTheme)
      ∧ ((reconcile samplePage [] reqScalarMix 3).page.font_style = reqScalarMix.font_style.getD sansFont)
      ∧ ((reconcile samplePage [] reqScalarMix 3).page.layout_order =
          match reqScalarMix.layout_order with
          | some l => if l.isEmpty then samplePage.layout_order else l
          | none => samplePage.layout_order) :=
  scalar_field_update_semantics samplePage [] reqScalarMix 3 (by decide) rfl

/-- Inserting an event into a list moves past only strictly earlier
dates, so the events carrying any fixed date keep their relative order. -/
theorem filter_orderedInsert (e : TEvent) (dd : Str) (l : List TEvent) :
    (l.orderedInsert dateLe e).filter (fun x => x.date == dd) =
      if e.date = dd then e :: l.filter (fun x => x.date == dd)
      else l.filter (fun x => x.date == dd) := by
  induction l with
  | nil =>
    by_cases hd : e.date = dd <;> simp [List.orderedInsert, hd]
  | cons b l ih =>
    by_cases hle : dateLe e b
    · have hfront : (b :: l).orderedInsert dateLe e = e :: b :: l := by
        simp [List.orderedInsert, hle]
      rw [hfront]
      by_cases hd : e.date = dd <;> simp [hd]
    · have hskip : (b :: l).orderedInsert dateLe e = b :: l.orderedInsert dateLe e := by
        simp [List.orderedInsert, hle]
      rw [hskip]
      have hblt : b.date < e.date := not_le.mp hle
      by_cases hd : e.date = dd
      · have hbne : b.date ≠ dd := by
          rw [← hd]
          exact ne_of_lt hblt
        simp [List.filter_cons, hbne, hd, ih]
      · by_cases hbd : b.date = dd <;> simp [List.filter_cons, hbd, hd, ih]

/-- Stability of the timeline sort: for every date, the subsequence of
events carrying that date is unchanged by the sort (ties keep their
insertion order). -/
theorem filter_sortTimeline (l : List TEvent) (dd : Str) :
    (sortTimeline l).filter (fun x => x.date == dd) =
      l.filter (fun x => x.date == dd) := by
  induction l with
  | nil => rfl
  | cons a l ih =>
    have hstep : sortTimeline (a :: l) = (sortTimeline l).orderedInsert dateLe a := rfl
    rw [hstep, filter_orderedInsert]
    by_cases hd : a.date = dd <;> simp [hd, ih]

/-- The photo-delete branch never touches the page row. -/
theorem delete_photo_branch_page (page : Page) (photos : List Photo) (s : Str) :
    (delete_photo_branch page photos s).page = page := by
  unfold delete_photo_branch
  split
  · rfl
  · split
    · split <;> rfl
    · rfl

/-- Every committed state has a timeline sorted ascending by date,
whatever the request, provided the stored timeline was sorted. -/
theorem sorted_reconcile_timeline (page : Page) (photos : List Photo)
    (req : EditRequest) (nextId : Int)
    (h : List.Sorted dateLe page.timeline) :
    List.Sorted dateLe (reconcile page photos req nextId).page.timeline := by
  by_cases hpm : hasPhotoDeleteMarker req = true
  · unfold reconcile
    rw [if_pos hpm, delete_photo_branch_page]
    exact h
  · unfold reconcile
    rw [if_neg hpm]
    cases hei : req.delete_event_idx with
    | some s =>
      show List.Sorted dateLe (delete_event_branch page photos s).page.timeline
      unfold delete_event_branch
      split
      · exact h
      · split
        · exact List.Pairwise.sublist (List.eraseIdx_sublist page.timeline _) h
        · exact h
    | none =>
      show List.Sorted dateLe
        (match req.new_event_date, req.new_event_title with
          | some d, some t =>
            if !d.isEmpty && !t.isEmpty then
              sortTimeline (page.timeline ++ [⟨d, strip t⟩])
            else page.timeline
          | _, _ => page.timeline)
      split
      · split
        · exact List.sorted_insertionSort dateLe _
        · exact h
      · exact h

/-- C3: on a save request whose new-event date and title are both
present and non-empty, the committed timeline is the stored timeline
with the pair (date, trimmed title) appended and the whole list
re-sorted ascending by date; the sort is stable (for any fixed date the
events carrying it keep their relative order); and, for an arbitrary
further request, a sorted stored timeline is sorted after the mutation
as well. -/
theorem timeline_add_sorted_stable (page : Page) (photos : List Photo)
    (req req2 : EditRequest) (nextId : Int) (d t dd : Str)
    (h1 : hasPhotoDeleteMarker req = false) (h2 : req.delete_event_idx = none)
    (hd : req.new_event_date = some d) (ht : req.new_event_title = some t)
    (hd2 : d ≠ []) (ht2 : t ≠ [])
    (hsorted : List.Sorted dateLe page.timeline) :
    ((reconcile page photos req nextId).page.timeline
        = sortTimeline (page.timeline ++ [⟨d, strip t⟩]))
      ∧ List.Sorted dateLe (reconcile page photos req nextId).page.timeline
      ∧ ((reconcile page photos req nextId).page.timeline.filter (fun e => e.date == dd)
          = (page.timeline ++ [(⟨d, strip t⟩ : TEvent)]).filter (fun e => e.date == dd))
      ∧ List.Sorted dateLe (reconcile page photos req2 nextId).page.timeline := by
  have hdi : d.isEmpty = false := by
    cases d with
    | nil => exact absurd rfl hd2
    | cons c cs => rfl
  have hti : t.isEmpty = false := by
    cases t with
    | nil => exact absurd rfl ht2
    | cons c cs => rfl
  have he : (reconcile page photos req nextId).page.timeline
      = sortTimeline (page.timeline ++ [⟨d, strip t⟩]) := by
    rw [reconcile_save page photos req nextId h1 h2]
    show (match req.new_event_date, req.new_event_title with
          | some d, some t =>
            if !d.isEmpty && !t.isEmpty then
              sortTimeline (page.timeline ++ [⟨d, strip t⟩])
            else page.timeline
          | _, _ => page.timeline)
        = sortTimeline (page.timeline ++ [⟨d, strip t⟩])
    simp [hd, ht, hdi, hti]
  refine ⟨he, ?_, ?_, sorted_reconcile_timeline page photos req2 nextId hsorted⟩
  · rw [he]
    exact List.sorted_insertionSort dateLe _
  · rw [he]
    exact filter_sortTimeline (page.timeline ++ [⟨d, strip t⟩]) dd

/-- Witness for `timeline_add_sorted_stable`: a concrete event append on
the sample page, with a concrete timeline deletion as the further
mutation. -/
theorem timeline_add_sorted_stable_witness :
    ((reconcile samplePage [] reqAddEvent 0).page.timeline
        = sortTimeline (samplePage.timeline
            ++ [⟨("2019-12-31").toList, strip ((" Ano Novo ").toList)⟩]))
      ∧ List.Sorted dateLe (reconcile samplePage [] reqAddEvent 0).page.timeline
      ∧ ((reconcile samplePage [] reqAddEvent 0).page.timeline.filter
            (fun e => e.date == ("2020-05-01").toList)
          = (samplePage.timeline
              ++ [(⟨("2019-12-31").toList, strip ((" Ano Novo ").toList)⟩ : TEvent)]).filter
            (fun e => e.date == ("2020-05-01").toList))
      ∧ List.Sorted dateLe (reconcile samplePage [] reqDelEvent0 0).page.timeline :=
  timeline_add_sorted_stable samplePage [] reqAddEvent reqDelEvent0 0
    (("2019-12-31").toList) ((" Ano Novo ").toList) (("2020-05-01").toList)
    (by decide) rfl rfl rfl (by decide) (by decide) (by decide)

/-- C4: a timeline-delete request whose marker parses to position `i`
removes exactly the element at `i` when `0 <= i < length` — the
committed timeline is the stored one with that element cut out and every
other element kept in place, the rest of the page and the photo table
untouched — and otherwise leaves everything unchanged and reports the
not-found error message to the caller instead of crashing. -/
theorem timeline_delete_exact (page : Page) (photos : List Photo)
    (req : EditRequest) (nextId : Int) (s : Str) (i : Int)
    (h1 : hasPhotoDeleteMarker req = false)
    (h2 : req.delete_event_idx = some s) (hs : pyInt s = some i) :
    reconcile page photos req nextId =
      if 0 ≤ i ∧ i < (page.timeline.length : Int) then
        (⟨{ page with timeline :=
            page.timeline.take i.toNat ++ page.timeline.drop (i.toNat + 1) },
          photos, none, some msgEventRemoved⟩ : RecResult)
      else (⟨page, photos, some msgEventNotFound, none⟩ : RecResult) := by
  unfold reconcile
  rw [if_neg (by simp [h1])]
  simp only [h2]
  unfold delete_event_branch
  simp only [hs]
  by_cases hr : 0 ≤ i ∧ i < (page.timeline.length : Int)
  · rw [if_pos hr, if_pos hr, List.eraseIdx_eq_take_drop_succ]
  · rw [if_neg hr, if_neg hr]

/-- Witness for `timeline_delete_exact`: deleting position 0 of the
sample page's one-event timeline. -/
theorem timeline_delete_exact_witness :
    reconcile samplePage [] reqDelEvent0 3 =
      if 0 ≤ (0 : Int) ∧ (0 : Int) < (samplePage.timeline.length : Int) then
        (⟨{ samplePage with timeline :=
            samplePage.timeline.take (Int.toNat 0)
              ++ samplePage.timeline.drop (Int.toNat 0 + 1) },
          [], none, some msgEventRemoved⟩ : RecResult)
      else (⟨samplePage, [], some msgEventNotFound, none⟩ : RecResult) :=
  timeline_delete_exact samplePage [] reqDelEvent0 3 (("0").toList) 0
    (by decide) rfl (by decide)

/-- C5 counterexample: the claim says a photo-delete naming a photo of a
different page is a no-op and *not an error*; the handler does leave the
photo table unchanged but reports the not-found/no-permission error
message to the caller. -/
theorem foreign_photo_delete_reports_error :
    (reconcile samplePage photosB reqDeleteForeign 0).photos = photosB
      ∧ (reconcile samplePage photosB reqDeleteForeign 0).error
          = some msgPhotoNotFound := by decide

/-- C5 (amended): a photo-delete request removes the photo exactly when
a photo with the parsed id exists and belongs to the requesting page;
naming an unknown photo id or a photo of a different page leaves every
page's photo set (the whole table) and the page row unchanged, but is
reported to the caller as an error message rather than silently — and
never crashes.  Ids are unique (primary key), expressed by `hnodup`. -/
theorem photo_delete_requires_ownership (page : Page) (photos : List Photo)
    (req : EditRequest) (nextId : Int) (s : Str) (pid : Int)
    (hnodup : (photos.map Photo.id).Nodup)
    (h1 : req.delete_photo_id = some s) (h2 : s ≠ [])
    (hs : pyInt s = some pid) :
    reconcile page photos req nextId =
      if ∃ ph ∈ photos, ph.id = pid ∧ ph.page_id = page.id then
        (⟨page, photos.filter fun p => p.id != pid, none,
          some msgPhotoRemoved⟩ : RecResult)
      else (⟨page, photos, some msgPhotoNotFound, none⟩ : RecResult) := by
  have hs2 : s.isEmpty = false := by
    cases s with
    | nil => exact absurd rfl h2
    | cons c cs => rfl
  have hpm : hasPhotoDeleteMarker req = true := by
    unfold hasPhotoDeleteMarker
    rw [h1]
    simp [hs2]
  have hget : req.delete_photo_id.getD [] = s := by rw [h1]; rfl
  unfold reconcile
  rw [if_pos hpm, hget]
  unfold delete_photo_branch
  simp only [hs]
  cases hf : photos.find? fun p => p.id == pid with
  | none =>
    have hnex : ¬ ∃ ph ∈ photos, ph.id = pid ∧ ph.page_id = page.id := by
      rintro ⟨ph, hmem, hid, _⟩
      have hno := List.find?_eq_none.mp hf ph hmem
      exact hno (by simp [hid])
    rw [if_neg hnex]
  | some ph =>
    have hmem : ph ∈ photos := List.mem_of_find?_eq_some hf
    have hid : ph.id = pid := by
      have := List.find?_some hf
      simpa using this
    by_cases ho : ph.page_id = page.id
    · have hex : ∃ q ∈ photos, q.id = pid ∧ q.page_id = page.id :=
        ⟨ph, hmem, hid, ho⟩
      rw [if_pos hex]
      simp [ho]
    · have hnex : ¬ ∃ q ∈ photos, q.id = pid ∧ q.page_id = page.id := by
        rintro ⟨q, hqmem, hqid, hqown⟩
        have hqe : q = ph :=
          List.inj_on_of_nodup_map hnodup hqmem hmem (by rw [hqid, hid])
        exact ho (hqe ▸ hqown)
      rw [if_neg hnex]
      simp [ho]

/-- Witness for `photo_delete_requires_ownership`: deleting an owned
photo from a two-page table. -/
theorem photo_delete_requires_ownership_witness :
    reconcile samplePage photosC reqDeleteOwn 9 =
      if ∃ ph ∈ photosC, ph.id = 7 ∧ ph.page_id = samplePage.id then
        (⟨samplePage, photosC.filter fun p => p.id != 7, none,
          some msgPhotoRemoved⟩ : RecResult)
      else (⟨samplePage, photosC, some msgPhotoNotFound, none⟩ : RecResult) :=
  photo_delete_requires_ownership samplePage photosC reqDeleteOwn 9
    (("7").toList) 7 (by decide) rfl (by decide) (by decide)

/-- Every photo inserted by the upload loop carries the fixed sentinel
`display_order = 99`. -/
theorem processFiles_display_order (pid : Int) :
    ∀ (n : Int) (files : List FileUpload) (p : Photo),
      p ∈ processFiles pid n files → p.display_order = 99 := by
  intro n files
  induction files generalizing n with
  | nil =>
    intro p hp
    simp [processFiles] at hp
  | cons f rest ih =>
    intro p hp
    unfold processFiles at hp
    by_cases hf : (!f.filename.isEmpty) = true
    · rw [if_pos hf] at hp
      cases hu : f.uploadResult with
      | some url =>
        simp only [hu] at hp
        cases hp with
        | head => rfl
        | tail _ hp2 => exact ih _ p hp2
      | none =>
        simp only [hu] at hp
        exact ih _ p hp
    · rw [if_neg hf] at hp
      exact ih _ p hp

/-- C6 counterexample: the existing photo of the table already has
`display_order` 99 (as any previously uploaded photo does), and the
newly uploaded photo also gets 99 — not a value strictly larger than
every existing one, so the new photo does not sort strictly after it. -/
theorem upload_sentinel_not_strictly_larger :
    ((reconcile samplePage photosOrder99 reqUploadOne 42).photos.map
        fun p => p.display_order) = [99, 99]
      ∧ ¬ (99 : Int) > 99 := by decide

/-- C6 (amended): on a save request every successfully stored file
yields a new Photo appended to the photo table with `display_order`
equal to the fixed sentinel 99; this places new photos after existing
photos whose order is below 99, but not strictly after photos whose
order is 99 or more. -/
theorem upload_display_order_sentinel (page : Page) (photos : List Photo)
    (req : EditRequest) (nextId : Int) (p : Photo)
    (h1 : hasPhotoDeleteMarker req = false) (h2 : req.delete_event_idx = none)
    (hp : p ∈ processFiles page.id nextId req.files) :
    (reconcile page photos req nextId).photos
        = applyOrders page.id req.orders photos
          ++ processFiles page.id nextId req.files
      ∧ p.display_order = 99 := by
  constructor
  · rw [reconcile_save page photos req nextId h1 h2]
    rfl
  · exact processFiles_display_order page.id nextId req.files p hp

/-- Witness for `upload_display_order_sentinel`: the single accepted
upload of `reqUploadOne` on the sample page. -/
theorem upload_display_order_sentinel_witness :
    (reconcile samplePage photosOrder99 reqUploadOne 42).photos
        = applyOrders samplePage.id reqUploadOne.orders photosOrder99
          ++ processFiles samplePage.id 42 reqUploadOne.files
      ∧ (⟨42, 1, ("https://directus/assets/n9").toList, 99⟩ : Photo).display_order
          = 99 :=
  upload_display_order_sentinel samplePage photosOrder99 reqUploadOne 42
    ⟨42, 1, ("https://directus/assets/n9").toList, 99⟩
    (by decide) rfl (by decide)

/-- A file whose upload fails contributes nothing to the upload loop:
removing it from the list leaves the inserted rows (and their assigned
ids) unchanged. -/
theorem processFiles_skip_failed (pid : Int) (f : FileUpload)
    (hfail : f.uploadResult = none) :
    ∀ (n : Int) (pre post : List FileUpload),
      processFiles pid n (pre ++ f :: post) = processFiles pid n (pre ++ post) := by
  intro n pre
  induction pre generalizing n with
  | nil =>
    intro post
    show processFiles pid n (f :: post) = processFiles pid n post
    by_cases hf : (!f.filename.isEmpty) = true
    · simp [processFiles, hf, hfail]
    · simp [processFiles, hf]
  | cons g rest ih =>
    intro post
    show processFiles pid n (g :: (rest ++ f :: post))
        = processFiles pid n (g :: (rest ++ post))
    by_cases hg : (!g.filename.isEmpty) = true
    · cases hu : g.uploadResult with
      | some url => simp [processFiles, hg, hu, ih]
      | none => simp [processFiles, hg, hu, ih]
    · simp [processFiles, hg, ih]

/-- C7: a failed upload among several is skipped and nothing else: the
committed state is the same as if the failed file had not been sent at
all (all other files still stored, every other change of the save
request applied), and the transaction still commits (no error, success
message set). -/
theorem failed_upload_skipped (page : Page) (photos : List Photo)
    (req : EditRequest) (nextId : Int) (pre post : List FileUpload)
    (f : FileUpload)
    (h1 : hasPhotoDeleteMarker req = false) (h2 : req.delete_event_idx = none)
    (hfiles : req.files = pre ++ f :: post) (hfail : f.uploadResult = none) :
    reconcile page photos req nextId
        = reconcile page photos { req with files := pre ++ post } nextId
      ∧ (reconcile page photos req nextId).error = none
      ∧ (reconcile page photos req nextId).success.isSome = true := by
  have h1b : hasPhotoDeleteMarker { req with files := pre ++ post } = false := h1
  have h2b : ({ req with files := pre ++ post } : EditRequest).delete_event_idx
      = none := h2
  rw [reconcile_save page photos req nextId h1 h2,
    reconcile_save page photos _ nextId h1b h2b]
  refine ⟨?_, rfl, rfl⟩
  unfold save_branch
  rw [hfiles, processFiles_skip_failed page.id f hfail nextId pre post]

/-- Witness for `failed_upload_skipped`: three uploads of which the
second fails at the asset store, plus a scalar edit that still commits. -/
theorem failed_upload_skipped_witness :
    reconcile samplePage photosA reqThreeFiles 20
        = reconcile samplePage photosA
            { reqThreeFiles with files := [fa] ++ [fc] } 20
      ∧ (reconcile samplePage photosA reqThreeFiles 20).error = none
      ∧ (reconcile samplePage photosA reqThreeFiles 20).success.isSome = true :=
  failed_upload_skipped samplePage photosA reqThreeFiles 20 [fa] [fc] fb
    (by decide) rfl rfl rfl

/-- A string containing a non-empty substring is non-empty. -/
theorem ne_nil_of_containsSub {needle h : Str} (hn : needle ≠ [])
    (hc : containsSub needle h = true) : h ≠ [] := by
  intro he
  subst he
  unfold containsSub at hc
  cases needle with
  | nil => exact hn rfl
  | cons a as => exact Bool.noConfusion hc

/-- A Boolean prefix stays a prefix after extending the list. -/
theorem isPrefixOf_append {l : Str} : ∀ {m : Str},
    l.isPrefixOf m = true → ∀ t, l.isPrefixOf (m ++ t) = true := by
  induction l with
  | nil =>
    intro m h t
    cases hmt : m ++ t with
    | nil => rfl
    | cons x xs => rfl
  | cons a as ih =>
    intro m h t
    cases m with
    | nil => simp [List.isPrefixOf] at h
    | cons b bs =>
      simp only [List.cons_append]
      simp only [List.isPrefixOf, Bool.and_eq_true] at h ⊢
      exact ⟨h.1, ih h.2 t⟩

/-- The empty string occurs in every string. -/
theorem containsSub_nil_needle : ∀ l : Str, containsSub [] l = true
  | [] => rfl
  | _ :: rest => by
    unfold containsSub
    simp [containsSub_nil_needle rest]

/-- Substring occurrence survives appending on the right. -/
theorem containsSub_append {n h : Str} (hc : containsSub n h = true)
    (t : Str) : containsSub n (h ++ t) = true := by
  induction h with
  | nil =>
    unfold containsSub at hc
    have : n = [] := by
      cases n with
      | nil => rfl
      | cons a as => exact Bool.noConfusion hc
    subst this
    exact containsSub_nil_needle t
  | cons c rest ih =>
    simp only [List.cons_append]
    unfold containsSub at hc ⊢
    rcases Bool.or_eq_true_iff.mp hc with h1 | h2
    · exact Bool.or_eq_true_iff.mpr (Or.inl (isPrefixOf_append h1 t))
    · exact Bool.or_eq_true_iff.mpr (Or.inr (ih h2))

/-- Every code point of the final split part comes from the input. -/
theorem splitTailGo_mem (sep : Str) :
    ∀ (s : Str) (k : Nat) (t : Str),
      splitTailGo sep k s = some t → ∀ c ∈ t, c ∈ s := by
  intro s
  induction s with
  | nil =>
    intro k t h
    simp [splitTailGo] at h
  | cons b rest ih =>
    intro k t h c hc
    cases k with
    | zero =>
      unfold splitTailGo at h
      by_cases hp : (sep.isPrefixOf (b :: rest)) = true
      · rw [if_pos hp] at h
        cases hrec : splitTailGo sep (sep.length - 1) rest with
        | some t2 =>
          simp only [hrec] at h
          injection h with h
          subst h
          exact List.mem_cons_of_mem b (ih _ _ hrec c hc)
        | none =>
          simp only [hrec] at h
          injection h with h
          subst h
          exact List.mem_cons_of_mem b (List.mem_of_mem_drop hc)
      · rw [if_neg hp] at h
        exact List.mem_cons_of_mem b (ih 0 t h c hc)
    | succ k2 =>
      unfold splitTailGo at h
      exact List.mem_cons_of_mem b (ih k2 t h c hc)

/-- Every code point of `splitTail sep s` comes from `s`. -/
theorem splitTail_mem (sep s : Str) : ∀ c ∈ splitTail sep s, c ∈ s := by
  unfold splitTail
  cases hgo : splitTailGo sep 0 s with
  | none => intro c hc; exact hc
  | some t => exact splitTailGo_mem sep s 0 t hgo

/-- A link that has no query part and already contains the embed marker
is returned unchanged by the normalizer. -/
theorem ensure_embed_url_fixed (u : Str)
    (hq : u.takeWhile (fun c => c != '?') = u)
    (hm : containsSub embedMark u = true) :
    ensure_embed_url (some u) = some u := by
  have hne : u ≠ [] := ne_nil_of_containsSub (by decide) hm
  show (if u = [] then none
    else
      let clean := u.takeWhile fun c => c != '?'
      if containsSub embedMark clean then some clean
      else if containsSub trackSep clean then
        some (embedTrackBase ++ splitTail trackSep clean)
      else if containsSub playlistSep clean then
        some (embedPlaylistBase ++ splitTail playlistSep clean)
      else some u) = some u
  rw [if_neg hne]
  simp [hq, hm]

/-- One unfolding step of the normalizer on a non-empty link. -/
theorem ensure_embed_url_some (u : Str) (hne : u ≠ []) :
    ensure_embed_url (some u) =
      (let clean := u.takeWhile fun c => c != '?'
       if containsSub embedMark clean then some clean
       else if containsSub trackSep clean then
         some (embedTrackBase ++ splitTail trackSep clean)
       else if containsSub playlistSep clean then
         some (embedPlaylistBase ++ splitTail playlistSep clean)
       else some u) := by
  show (if u = [] then none
    else
      let clean := u.takeWhile fun c => c != '?'
      if containsSub embedMark clean then some clean
      else if containsSub trackSep clean then
        some (embedTrackBase ++ splitTail trackSep clean)
      else if containsSub playlistSep clean then
        some (embedPlaylistBase ++ splitTail playlistSep clean)
      else some u) = _
  rw [if_neg hne]

/-- C8: the embed-URL normalizer is a pure function, idempotent on every
input — normalizing twice equals normalizing once — and in particular an
already-canonical embeddable link (no query part, embed marker present)
is returned unchanged. -/
theorem ensure_embed_url_idempotent (x : Option Str) (u : Str)
    (hq : u.takeWhile (fun c => c != '?') = u)
    (hm : containsSub embedMark u = true) :
    ensure_embed_url (ensure_embed_url x) = ensure_embed_url x
      ∧ ensure_embed_url (some u) = some u := by
  refine ⟨?_, ensure_embed_url_fixed u hq hm⟩
  cases x with
  | none => rfl
  | some u0 =>
    by_cases h0 : u0 = []
    · subst h0
      rfl
    · have hstep := ensure_embed_url_some u0 h0
      by_cases hm0 : containsSub embedMark (u0.takeWhile fun c => c != '?') = true
      · have hfx : ensure_embed_url (some u0)
            = some (u0.takeWhile fun c => c != '?') := by
          rw [hstep]
          simp [hm0]
        rw [hfx]
        exact ensure_embed_url_fixed _
          (List.takeWhile_eq_self_iff.mpr fun c hc =>
            @List.mem_takeWhile_imp _ (fun c => c != '?') u0 c hc)
          hm0
      · by_cases ht0 : containsSub trackSep (u0.takeWhile fun c => c != '?') = true
        · have hfx : ensure_embed_url (some u0)
              = some (embedTrackBase
                  ++ splitTail trackSep (u0.takeWhile fun c => c != '?')) := by
            rw [hstep]
            simp [hm0, ht0]
          rw [hfx]
          refine ensure_embed_url_fixed _ ?_ ?_
          · apply List.takeWhile_eq_self_iff.mpr
            intro c hc
            rcases List.mem_append.mp hc with hb | htl
            · have hbase : ∀ c ∈ embedTrackBase, (c != '?') = true := by decide
              exact hbase c hb
            · exact @List.mem_takeWhile_imp _ (fun c => c != '?') u0 c
                (splitTail_mem trackSep _ c htl)
          · exact containsSub_append (by decide) _
        · by_cases hp0 : containsSub playlistSep (u0.takeWhile fun c => c != '?') = true
          · have hfx : ensure_embed_url (some u0)
                = some (embedPlaylistBase
                    ++ splitTail playlistSep (u0.takeWhile fun c => c != '?')) := by
              rw [hstep]
              simp [hm0, ht0, hp0]
            rw [hfx]
            refine ensure_embed_url_fixed _ ?_ ?_
            · apply List.takeWhile_eq_self_iff.mpr
              intro c hc
              rcases List.mem_append.mp hc with hb | htl
              · have hbase : ∀ c ∈ embedPlaylistBase, (c != '?') = true := by decide
                exact hbase c hb
              · exact @List.mem_takeWhile_imp _ (fun c => c != '?') u0 c
                  (splitTail_mem playlistSep _ c htl)
            · exact containsSub_append (by decide) _
          · have hfx : ensure_embed_url (some u0) = some u0 := by
              rw [hstep]
              simp [hm0, ht0, hp0]
            rw [hfx]
            exact hfx

/-- Witness for `ensure_embed_url_idempotent`: a track link with a query
part, and a canonical playlist embed link. -/
theorem ensure_embed_url_idempotent_witness :
    ensure_embed_url (ensure_embed_url
        (some (("https://open.spotify.com/track/abc?si=1").toList)))
        = ensure_embed_url (some (("https://open.spotify.com/track/abc?si=1").toList))
      ∧ ensure_embed_url (some (("https://open.spotify.com/embed/playlist/pl1").toList))
          = some (("https://open.spotify.com/embed/playlist/pl1").toList) :=
  ensure_embed_url_idempotent
    (some (("https://open.spotify.com/track/abc?si=1").toList))
    (("https://open.spotify.com/embed/playlist/pl1").toList)
    (by decide) (by decide)

/-- C9 counterexample: the search endpoint checks only `if not query`,
so the length-1 query `"a"` of the spec's example scenario does reach
`search_tracks`, which performs the token exchange — one HTTP request to
the Music Lookup API, not zero as the claim requires. -/
theorem length_one_query_calls_api :
    qA.length = 1 ∧ (spotify_search_api envFail qA).2 ≠ 0 := by decide

/-- C9 (amended): only a blank query short-circuits — it yields an empty
result set with no Music Lookup API request; every non-empty query,
including a query of length 1, makes at least one API request (the token
exchange); there is no minimum-length policy beyond non-emptiness. -/
theorem search_query_blank_policy (env : SpotifyEnv) (q : Str)
    (hq : q ≠ []) :
    spotify_search_api env [] = ([], 0)
      ∧ 1 ≤ (spotify_search_api env q).2 := by
  constructor
  · rfl
  · have hqe : q.isEmpty = false := by
      cases q with
      | nil => exact absurd rfl hq
      | cons c cs => rfl
    unfold spotify_search_api
    rw [hqe]
    show 1 ≤ (if false = true then (([] : List Str), 0) else search_tracks env).2
    rw [if_neg (by simp)]
    unfold search_tracks
    cases env.token with
    | none => exact le_refl 1
    | some tok =>
      cases env.searchItems with
      | some items => exact one_le_two
      | none => exact one_le_two

/-- Witness for `search_query_blank_policy` at the length-1 query. -/
theorem search_query_blank_policy_witness :
    spotify_search_api envFail [] = ([], 0)
      ∧ 1 ≤ (spotify_search_api envFail qA).2 :=
  search_query_blank_policy envFail qA (by decide)

/-- C10: on a save request, a music-link field that is absent, empty or
whitespace-only leaves the stored link unchanged (empty submission means
leave-unchanged, never an explicit clear), and a submission that is
non-empty after trimming stores the normalizer applied to the trimmed
submitted link. -/
theorem music_link_update (page : Page) (photos : List Photo)
    (req : EditRequest) (nextId : Int)
    (h1 : hasPhotoDeleteMarker req = false) (h2 : req.delete_event_idx = none) :
    (reconcile page photos req nextId).page.spotify_url
      = if strip (req.spotify_url.getD []) = [] then page.spotify_url
        else ensure_embed_url (some (strip (req.spotify_url.getD []))) := by
  rw [reconcile_save page photos req nextId h1 h2]
  show (if (strip (req.spotify_url.getD [])).isEmpty then page.spotify_url
      else ensure_embed_url (some (strip (req.spotify_url.getD []))))
    = _
  by_cases hsp : strip (req.spotify_url.getD []) = []
  · rw [if_pos hsp]
    rw [if_pos (by simp [hsp])]
  · rw [if_neg hsp]
    rw [if_neg (by simp [hsp])]

/-- Witness for `music_link_update`: a padded track link is trimmed,
normalized and stored. -/
theorem music_link_update_witness :
    (reconcile samplePage [] reqSpotify 4).page.spotify_url
      = if strip (reqSpotify.spotify_url.getD []) = [] then samplePage.spotify_url
        else ensure_embed_url (some (strip (reqSpotify.spotify_url.getD []))) :=
  music_link_update samplePage [] reqSpotify 4 (by decide) rfl
